import Mathlib

/-!
Verification of the grpc-bidir tunnel core: a shallow embedding of the
agent-side HTTP executor and cancel registry, the controller-side inbound
HTTP handler, the agent hello frames, and the agent credential refresher,
each translated from the Go sources, together with theorems settling the
frozen claims about them.
-/

/-! ## Frame model (tunnel package messages)

Protobuf messages carried on the bidirectional stream.  Byte strings are
modelled as `List Nat`, header multimaps as lists of name/values pairs in
iteration order.  Unset proto3 scalar fields take their zero value. -/

/-- `tunnel.HttpHeader`: one header name with its list of values. -/
structure HttpHeader where
  name : String
  values : List String
deriving DecidableEq

/-- `tunnel.HttpRequest`: the request frame forwarded controller → agent. -/
structure HttpRequest where
  id : String
  target : String
  method : String
  uri : String
  headers : List HttpHeader
  body : List Nat
deriving DecidableEq

/-- `tunnel.HttpResponse`: the header frame sent agent → controller.
`status` and `contentLength` are machine integers in Go; the values that
occur (HTTP statuses, content lengths, -1) are far from overflow, so `Int`
is used directly. -/
structure HttpResponse where
  id : String
  target : String
  status : Int
  contentLength : Int
  headers : List HttpHeader := []
deriving DecidableEq

/-- `tunnel.HttpChunkedResponse`: one body chunk; an empty `body` terminates
the response. -/
structure HttpChunkedResponse where
  id : String
  target : String
  body : List Nat
deriving DecidableEq

/-- `tunnel.ASEventWrapper` (agent → server), restricted to the arms the
inbound HTTP handler distinguishes; `other` stands for a wrapper whose
event is nil or any arm the handler's switch ignores (logged and skipped). -/
inductive ASEvent where
  | httpResponse (r : HttpResponse)
  | httpChunkedResponse (c : HttpChunkedResponse)
  | other
deriving DecidableEq

/-- `tunnel.CurrentProtocolVersion`: the compile-time protocol version
constant shared by agent and controller. -/
def CurrentProtocolVersion : Nat := 10

/-- `tunnel.AgentHello`: first frame from agent to controller.  A field a
Go struct literal does not mention is the proto3 zero value. -/
structure AgentHello where
  protocols : List String
  commandNames : List String
  kubernetesNamespaces : List String
  protocolVersion : Nat
deriving DecidableEq

/-- True exactly on a chunked-response frame whose body is empty — the
terminating chunk of a response. -/
def isEmptyChunk : ASEvent → Bool
  | ASEvent.httpResponse _ => false
  | ASEvent.httpChunkedResponse c => c.body.isEmpty
  | ASEvent.other => false

namespace Agent

/-! ## Agent-side HTTP executor (`agent/agent.go`, `executeRequest`)

The executor's effects on the network are abstracted as inputs: whether
building the outbound request failed, whether executing it failed, and on
success the upstream status, content length, headers and the sequence of
body reads.  Its outputs are the list of frames pushed into `dataflow`,
in order. -/

/-- Agent-side `makeHeaders`: copies every header of the upstream response
into `HttpHeader` frames (no filtering, unlike the controller's). -/
def makeHeaders (headers : List (String × List String)) : List HttpHeader :=
  headers.foldl (fun ret p => ret ++ [HttpHeader.mk p.1 p.2]) []

/-- The error, if any, returned by one `get.Body.Read` call: `io.EOF`,
`context.Canceled`, or any other error. -/
inductive ReadErr where
  | eof
  | canceled
  | other
deriving DecidableEq

/-- One `get.Body.Read(buf)` outcome: the bytes read (`n > 0` iff nonempty)
and the error returned alongside them. -/
structure ReadStep where
  bytes : List Nat
  err : Option ReadErr
deriving DecidableEq

/-- The executor's body-read loop (`for { ... get.Body.Read ... }`): each
step first emits a chunk if `n > 0`, then returns on `io.EOF` (after the
terminating empty chunk), returns on `context.Canceled` (no further frame),
returns on any other error (after the terminating empty chunk), else loops. -/
def readLoop (id target : String) : List ReadStep → List ASEvent
  | [] => []
  | step :: rest =>
    (if step.bytes.isEmpty then []
     else [ASEvent.httpChunkedResponse ⟨id, target, step.bytes⟩]) ++
    (match step.err with
     | some ReadErr.eof => [ASEvent.httpChunkedResponse ⟨id, target, []⟩]
     | some ReadErr.canceled => []
     | some ReadErr.other => [ASEvent.httpChunkedResponse ⟨id, target, []⟩]
     | none => readLoop id target rest)

/-- Resolution of the executor's two fallible calls:
`http.NewRequestWithContext` failing, `client.Do` failing, or success with
the upstream's status, content length, headers, and body-read outcomes. -/
inductive ExecOutcome where
  | buildError
  | executeError
  | success (status : Int) (contentLength : Int)
      (headers : List (String × List String)) (reads : List ReadStep)
deriving DecidableEq

/-- `executeRequest`, as the list of frames it sends on `dataflow`: on a
build or execute error a single 502/length-0 header frame and an immediate
return; on success the upstream header frame followed by the body-read
loop's frames. -/
def executeRequest (req : HttpRequest) (oc : ExecOutcome) : List ASEvent :=
  match oc with
  | ExecOutcome.buildError =>
      [ASEvent.httpResponse ⟨req.id, req.target, 502, 0, []⟩]
  | ExecOutcome.executeError =>
      [ASEvent.httpResponse ⟨req.id, req.target, 502, 0, []⟩]
  | ExecOutcome.success st cl hs reads =>
      ASEvent.httpResponse ⟨req.id, req.target, st, cl, makeHeaders hs⟩ ::
        readLoop req.id req.target reads

/-! ## Agent-side cancel registry (`cancelRegistry` and its helpers)

The Go map `map[string]context.CancelFunc` is modelled as a function from
request ids to an optional cancel handle; handles are named by `Nat`
tokens since only identity matters. -/

/-- The cancel registry: request id → registered cancel handle. -/
abbrev CancelRegistry := String → Option Nat

/-- `registerCancelFunction`: `cancelRegistry.m[id] = cancel`. -/
def registerCancelFunction (m : CancelRegistry) (id : String) (c : Nat) : CancelRegistry :=
  fun x => if x = id then some c else m x

/-- `unregisterCancelFunction`: `delete(cancelRegistry.m, id)`. -/
def unregisterCancelFunction (m : CancelRegistry) (id : String) : CancelRegistry :=
  fun x => if x = id then none else m x

/-- `callCancelFunction`: look the id up and, when present, invoke the
cancel handle.  Returns the registry (never modified here) and the handle
that was invoked, if any. -/
def callCancelFunction (m : CancelRegistry) (id : String) : CancelRegistry × Option Nat :=
  match m id with
  | some c => (m, some c)
  | none => (m, none)

/-- `executeRequest` with the cancel registry threaded through: the handle
is registered before the request is built, and the deferred
`unregisterCancelFunction` runs on each of the three return paths (build
error, execute error, end of the body-read loop). -/
def executeRequestReg (m : CancelRegistry) (c : Nat) (req : HttpRequest)
    (oc : ExecOutcome) : List ASEvent × CancelRegistry :=
  let m1 := registerCancelFunction m req.id c
  match oc with
  | ExecOutcome.buildError =>
      ([ASEvent.httpResponse ⟨req.id, req.target, 502, 0, []⟩],
       unregisterCancelFunction m1 req.id)
  | ExecOutcome.executeError =>
      ([ASEvent.httpResponse ⟨req.id, req.target, 502, 0, []⟩],
       unregisterCancelFunction m1 req.id)
  | ExecOutcome.success st cl hs reads =>
      (ASEvent.httpResponse ⟨req.id, req.target, st, cl, makeHeaders hs⟩ ::
         readLoop req.id req.target reads,
       unregisterCancelFunction m1 req.id)

/-! ## Agent hello frames

`runTunnel` (the older agent `main`) and `runKubernetesTunnel`
(`app/agent/agent.go`) each build the first frame of their stream. -/

/-- The `AgentHello` built by the older agent's `runTunnel`: no
`ProtocolVersion` field in the literal, so it is the proto3 zero value 0. -/
def runTunnelHello (namespaces : List String) : AgentHello :=
  { protocols := ["kubernetes"]
    commandNames := []
    kubernetesNamespaces := namespaces
    protocolVersion := 0 }

/-- The `AgentHello` built by `runKubernetesTunnel` in
`app/agent/agent.go`, which sets `ProtocolVersion: tunnel.CurrentProtocolVersion`. -/
def runKubernetesTunnelHello (namespaces : List String) : AgentHello :=
  { protocols := ["kubernetes", "remote-command"]
    commandNames := ["bash"]
    kubernetesNamespaces := namespaces
    protocolVersion := CurrentProtocolVersion }

end Agent

/-- A concrete request used to instantiate counterexamples and witnesses. -/
def req0 : HttpRequest :=
  ⟨"r1", "t1", "GET", "/healthz", [], []⟩

/-- C1 counterexample: on a build error the executor emits only the
502/length-0 header frame — the frame list contains no empty chunk at all,
so "then emits exactly one terminating empty chunk" fails. -/
theorem executeRequest_error_chunkless_cex :
    Agent.executeRequest req0 Agent.ExecOutcome.buildError
      = [ASEvent.httpResponse ⟨"r1", "t1", 502, 0, []⟩] ∧
    (Agent.executeRequest req0 Agent.ExecOutcome.buildError).countP isEmptyChunk = 0 := by
  decide

/-- C1 (amended): on any build or execute error the executor emits exactly
one header frame with status 502 and contentLength 0 bearing the request's
id and target, and returns immediately without emitting any chunk frame. -/
theorem executeRequest_error_502_only (req : HttpRequest) (oc : Agent.ExecOutcome)
    (h : oc = Agent.ExecOutcome.buildError ∨ oc = Agent.ExecOutcome.executeError) :
    Agent.executeRequest req oc
      = [ASEvent.httpResponse ⟨req.id, req.target, 502, 0, []⟩] := by
  rcases h with h | h <;> subst h <;> rfl

/-- Witness for `executeRequest_error_502_only` at a concrete request. -/
theorem executeRequest_error_502_only_witness :
    Agent.executeRequest req0 Agent.ExecOutcome.buildError
      = [ASEvent.httpResponse ⟨req0.id, req0.target, 502, 0, []⟩] :=
  executeRequest_error_502_only req0 Agent.ExecOutcome.buildError (Or.inl rfl)

/-- C2 counterexample: when the body read returns `context.Canceled`, the
loop returns without emitting any frame — in particular no terminating
empty chunk, refuting the claim for the cancellation case. -/
theorem readLoop_canceled_cex :
    Agent.readLoop "r1" "t1" [⟨[], some Agent.ReadErr.canceled⟩] = [] ∧
    (Agent.readLoop "r1" "t1" [⟨[], some Agent.ReadErr.canceled⟩]).countP isEmptyChunk = 0 := by
  decide

/-- C2 (amended): a read step that ends the loop first emits the data read
(if any), and then: on `io.EOF` or any other read error exactly one
terminating empty chunk; on `context.Canceled` no further frame. -/
theorem readLoop_termination_frames (id t : String) (b : List Nat)
    (e : Agent.ReadErr) (rest : List Agent.ReadStep) :
    Agent.readLoop id t (⟨b, some e⟩ :: rest)
      = (if b.isEmpty then [] else [ASEvent.httpChunkedResponse ⟨id, t, b⟩]) ++
        (if e = Agent.ReadErr.canceled then []
         else [ASEvent.httpChunkedResponse ⟨id, t, []⟩]) ∧
    (Agent.readLoop id t (⟨b, some e⟩ :: rest)).countP isEmptyChunk
      = if e = Agent.ReadErr.canceled then 0 else 1 := by
  cases e <;> cases b <;>
    simp [Agent.readLoop, isEmptyChunk, List.countP_cons, List.countP_append]

/-- C9: the cancel registry maps the request's id to its cancel handle from
registration until the executor returns; on every return path the deferred
unregister removes the id, and threading the registry does not change the
emitted frames. -/
theorem executeRequest_cancel_registry (m : Agent.CancelRegistry) (c : Nat)
    (req : HttpRequest) (oc : Agent.ExecOutcome) :
    Agent.registerCancelFunction m req.id c req.id = some c ∧
    (Agent.executeRequestReg m c req oc).2 req.id = none ∧
    (Agent.executeRequestReg m c req oc).1 = Agent.executeRequest req oc := by
  refine ⟨by simp [Agent.registerCancelFunction], ?_, ?_⟩
  · cases oc <;> simp [Agent.executeRequestReg, Agent.unregisterCancelFunction]
  · cases oc <;> rfl

/-- C10: calling the cancel path with an id absent from the registry is a
no-op — no cancel handle is invoked and the registry is unchanged. -/
theorem callCancelFunction_absent (m : Agent.CancelRegistry) (id : String)
    (h : m id = none) :
    Agent.callCancelFunction m id = (m, none) := by
  simp [Agent.callCancelFunction, h]

/-- A concrete one-entry cancel registry for the C10 witness. -/
def regW : Agent.CancelRegistry :=
  Agent.registerCancelFunction (fun _ => none) "r1" 5

/-- Witness for `callCancelFunction_absent` at a concrete registry and an
id not present in it. -/
theorem callCancelFunction_absent_witness :
    Agent.callCancelFunction regW "r2" = (regW, none) :=
  callCancelFunction_absent regW "r2" (by decide)

/-- C4 counterexample: the hello frame built by the older agent's
`runTunnel` does not carry the controller's protocol version constant —
its `protocolVersion` is the proto3 default 0, not 10. -/
theorem runTunnel_hello_version_cex :
    ¬ (Agent.runTunnelHello ["default"]).protocolVersion = CurrentProtocolVersion := by
  decide

/-- C4 (amended): the hello sent by `runKubernetesTunnel`
(`app/agent/agent.go`) carries `protocolVersion` equal to
`CurrentProtocolVersion` (10), while the older agent's `runTunnel` hello
leaves the field at its proto3 default 0. -/
theorem agentHello_protocolVersion (namespaces : List String) :
    (Agent.runKubernetesTunnelHello namespaces).protocolVersion = CurrentProtocolVersion ∧
    (Agent.runTunnelHello namespaces).protocolVersion = 0 :=
  ⟨rfl, rfl⟩

namespace Controller

/-! ## Controller-side inbound HTTP handler (`controller/controller.go`)

Header multimaps (`http.Header`, `map[string][]string`) are modelled as
lists of name/values pairs in iteration order. -/

/-- A header multimap in iteration order. -/
abbrev Headers := List (String × List String)

/-- Controller-side `makeHeaders`: copies every header of the inbound
client request into `HttpHeader` frames, skipping any entry whose name is
`Accept-Encoding`. -/
def makeHeaders (headers : Headers) : List HttpHeader :=
  headers.foldl
    (fun ret p =>
      if p.1 != "Accept-Encoding" then ret ++ [HttpHeader.mk p.1 p.2] else ret)
    []

/-- The `tunnel.HttpRequest` literal built by `kubernetesAPIHandler` from
the inbound request's pieces. -/
def buildTunnelRequest (id target method uri : String) (rheaders : Headers)
    (body : List Nat) : HttpRequest :=
  ⟨id, target, method, uri, makeHeaders rheaders, body⟩

/-- `agents.m[agentname]`: the registry lookup, with sessions named by
`Nat` tokens. -/
def lookupAgents (agents : List (String × List Nat)) (name : String) :
    Option (List Nat) :=
  (agents.find? (fun p => p.1 == name)).map (fun p => p.2)

/-- What the routing prologue of `kubernetesAPIHandler` did: the updated
per-identity request counters, the status written directly (502 when no
agent is connected), and the session the request was handed to, if any. -/
structure RouteResult where
  counters : String → Nat
  statusWritten : Option Int
  session : Option Nat

/-- The routing prologue of `kubernetesAPIHandler`: increment the
per-identity request counter, look the identity up in the registry, write
502 and return when it has no connected session, otherwise pick one session
at random (the random draw is the `pick` input). -/
def kubernetesAPIHandlerRoute (agents : List (String × List Nat))
    (counters : String → Nat) (agentname : String) (pick : Nat) : RouteResult :=
  let counters2 := fun x => if x = agentname then counters x + 1 else counters x
  match lookupAgents agents agentname with
  | none => ⟨counters2, some 502, none⟩
  | some l =>
      if l.length = 0 then ⟨counters2, some 502, none⟩
      else ⟨counters2, none, l.get? (pick % l.length)⟩

/-- `http.Header.Del`: remove every entry with the given name. -/
def headerDel (h : Headers) (name : String) : Headers :=
  h.filter (fun p => p.1 != name)

/-- `http.Header.Add`: append one value to the entry of the given name,
creating the entry if absent. -/
def headerAdd (h : Headers) (name value : String) : Headers :=
  if h.any (fun p => p.1 == name) then
    h.map (fun p => if p.1 == name then (p.1, p.2 ++ [value]) else p)
  else h ++ [(name, [value])]

/-- The nested loop `for _, header := range resp.Headers { for _, value
:= range header.Values { w.Header().Add(...) } }`. -/
def addFrameHeaders (wh : Headers) (hs : List HttpHeader) : Headers :=
  hs.foldl (fun acc h => h.values.foldl (fun a v => headerAdd a h.name v) acc) wh

/-- What the handler's `HttpResponse` arm does to the writer's header map
`wh` and the request's header map `rh`, returning also the status written:
`for name := range w.Header() { r.Header.Del(name) }`, then add the frame's
headers to the writer, then `w.WriteHeader(int(resp.Status))`. -/
def processHttpResponse (wh rh : Headers) (resp : HttpResponse) :
    Headers × Headers × Int :=
  let rh2 := wh.foldl (fun acc p => headerDel acc p.1) rh
  let wh2 := addFrameHeaders wh resp.headers
  (wh2, rh2, resp.status)

/-- Modelled from the spec: the handler propagates the frame's status and
headers, "clearing any default response headers first" — the writer's
header map is emptied before the frame's headers are added, and the
request's headers are untouched. -/
def processHttpResponseSpec (wh rh : Headers) (resp : HttpResponse) :
    Headers × Headers × Int :=
  let _ := wh
  (addFrameHeaders [] resp.headers, rh, resp.status)

/-- One visible effect of the handler on the HTTP response writer. -/
inductive WriterAction where
  | writeHeader (status : Int)
  | write (bytes : List Nat)
  | flush
deriving DecidableEq

/-- The handler's response loop `for { in, more := <-message.out ... }`,
as the list of writer actions it performs: a close before any header frame
writes 502; an `HttpResponse` frame writes its status and finishes when
`contentLength == 0`; a chunk before the header frame writes 502 and
returns; an empty chunk finishes; a nonempty chunk is written (and flushed
when chunked); other events are skipped. -/
def kubernetesAPIResponseLoop : Bool → Bool → List ASEvent → List WriterAction
  | seenHeader, _, [] =>
      if seenHeader then [] else [WriterAction.writeHeader 502]
  | _, _, ASEvent.httpResponse resp :: rest =>
      WriterAction.writeHeader resp.status ::
        (if resp.contentLength = 0 then []
         else kubernetesAPIResponseLoop true (decide (resp.contentLength < 0)) rest)
  | seenHeader, isChunked, ASEvent.httpChunkedResponse c :: rest =>
      if seenHeader then
        (if c.body.isEmpty then []
         else WriterAction.write c.body ::
           ((if isChunked then [WriterAction.flush] else []) ++
             kubernetesAPIResponseLoop seenHeader isChunked rest))
      else [WriterAction.writeHeader 502]
  | seenHeader, isChunked, ASEvent.other :: rest =>
      kubernetesAPIResponseLoop seenHeader isChunked rest

end Controller

/-- Accumulator form of the controller's `makeHeaders` fold. -/
theorem Controller.makeHeaders_foldl (hs : Controller.Headers) :
    ∀ acc : List HttpHeader,
      hs.foldl
        (fun ret p =>
          if p.1 != "Accept-Encoding" then ret ++ [HttpHeader.mk p.1 p.2] else ret)
        acc
      = acc ++ (hs.filter (fun p => p.1 != "Accept-Encoding")).map
          (fun p => HttpHeader.mk p.1 p.2) := by
  induction hs with
  | nil => intro acc; simp
  | cons h t ih =>
    intro acc
    rw [List.foldl_cons, ih, List.filter_cons]
    by_cases hb : h.1 = "Accept-Encoding"
    · simp [hb]
    · simp [hb, bne_iff_ne]

/-- C5: the header multimap placed into the forwarded `HttpRequest` frame
is the client's request headers with every `Accept-Encoding` entry removed
and every other entry carried over unchanged, in order. -/
theorem forwarded_headers_strip_accept_encoding (id target method uri : String)
    (rheaders : Controller.Headers) (body : List Nat) :
    (Controller.buildTunnelRequest id target method uri rheaders body).headers
      = (rheaders.filter (fun p => p.1 != "Accept-Encoding")).map
          (fun p => HttpHeader.mk p.1 p.2) := by
  simpa [Controller.buildTunnelRequest, Controller.makeHeaders] using
    Controller.makeHeaders_foldl rheaders []

/-- C7: when the derived identity has no connected agent session (absent
from the registry, or present with an empty session list), the handler
writes 502, forwards to no session, and the identity's request counter is
still incremented by exactly 1. -/
theorem noAgent_502_counter (agents : List (String × List Nat))
    (counters : String → Nat) (agentname : String) (pick : Nat)
    (h : Controller.lookupAgents agents agentname = none ∨
         Controller.lookupAgents agents agentname = some []) :
    (Controller.kubernetesAPIHandlerRoute agents counters agentname pick).statusWritten
        = some 502 ∧
    (Controller.kubernetesAPIHandlerRoute agents counters agentname pick).session
        = none ∧
    (Controller.kubernetesAPIHandlerRoute agents counters agentname pick).counters
        agentname = counters agentname + 1 := by
  rcases h with h | h <;> simp [Controller.kubernetesAPIHandlerRoute, h]

/-- Witness for `noAgent_502_counter`: identity `A2` is absent from a
registry holding only `A1`. -/
theorem noAgent_502_counter_witness :
    (Controller.kubernetesAPIHandlerRoute [("A1", [7])] (fun _ => 0) "A2" 0).statusWritten
        = some 502 ∧
    (Controller.kubernetesAPIHandlerRoute [("A1", [7])] (fun _ => 0) "A2" 0).session
        = none ∧
    (Controller.kubernetesAPIHandlerRoute [("A1", [7])] (fun _ => 0) "A2" 0).counters
        "A2" = 1 :=
  noAgent_502_counter [("A1", [7])] (fun _ => 0) "A2" 0 (Or.inl (by decide))

/-- C8: if a chunked-response frame arrives while every earlier event was
one the handler skips — i.e. before any header frame — the loop writes 502
and returns; in particular no body bytes are ever written. -/
theorem chunk_before_header_502 (pre : List ASEvent) (c : HttpChunkedResponse)
    (rest : List ASEvent)
    (h : ∀ e ∈ pre, e = ASEvent.other) :
    Controller.kubernetesAPIResponseLoop false false
        (pre ++ ASEvent.httpChunkedResponse c :: rest)
      = [Controller.WriterAction.writeHeader 502] := by
  induction pre with
  | nil => simp [Controller.kubernetesAPIResponseLoop]
  | cons e t ih =>
    have he : e = ASEvent.other := h e (by simp)
    subst he
    have ht : ∀ x ∈ t, x = ASEvent.other := fun x hx => h x (by simp [hx])
    simpa [Controller.kubernetesAPIResponseLoop] using ih ht

/-- Witness for `chunk_before_header_502`: one skipped event, then a
nonempty chunk, with no header frame anywhere before it. -/
theorem chunk_before_header_502_witness :
    Controller.kubernetesAPIResponseLoop false false
        ([ASEvent.other] ++ ASEvent.httpChunkedResponse ⟨"r1", "t1", [1]⟩ :: [])
      = [Controller.WriterAction.writeHeader 502] :=
  chunk_before_header_502 [ASEvent.other] ⟨"r1", "t1", [1]⟩ [] (by decide)

/-- C3: on the first `HttpResponse` frame the handler deletes the writer's
default header names from the *request's* header map, not from the writer's
own, so a default header already on the writer (here `Content-Type:
text/plain`) survives and the response headers are not exactly the frame's:
the code's result differs from the spec-modelled clearing behaviour. -/
theorem processHttpResponse_keeps_writer_defaults :
    Controller.processHttpResponse
        [("Content-Type", ["text/plain"])] [("Content-Type", ["application/json"])]
        ⟨"r1", "t1", 200, 5, [⟨"X-Test", ["1"]⟩]⟩
      = ([("Content-Type", ["text/plain"]), ("X-Test", ["1"])], [], 200) ∧
    (Controller.processHttpResponse
        [("Content-Type", ["text/plain"])] [("Content-Type", ["application/json"])]
        ⟨"r1", "t1", 200, 5, [⟨"X-Test", ["1"]⟩]⟩).1
      ≠ (Controller.processHttpResponseSpec
        [("Content-Type", ["text/plain"])] [("Content-Type", ["application/json"])]
        ⟨"r1", "t1", 200, 5, [⟨"X-Test", ["1"]⟩]⟩).1 := by
  decide

namespace Agent

/-! ## Credential refresher (`app/agent/agent.go`)

Certificates are modelled by their raw bytes: `x509.Certificate.Equal`
compares raw DER bytes, and the client keypair's `Certificate` field is the
chain of DER blocks whose head is the leaf. -/

/-- `serverContextFields`: the credential snapshot the executor uses. -/
structure serverContextFields where
  username : String
  serverURL : String
  serverCA : Option (List Nat)
  clientCert : Option (List (List Nat))
  token : String
  insecure : Bool
deriving DecidableEq

/-- `(*serverContextFields).isSameAs`: false as soon as username, server
URL, token or the insecure flag differ; then false on CA presence or raw
byte mismatch; then false on client-certificate presence or leaf
(`Certificate[0]`) mismatch; else true. -/
def isSameAs (scf scf2 : serverContextFields) : Bool :=
  if scf.username != scf2.username || scf.serverURL != scf2.serverURL ||
     scf.token != scf2.token || scf.insecure != scf2.insecure then false
  else if (scf.serverCA.isNone && scf2.serverCA.isSome) ||
          (scf.serverCA.isSome && scf2.serverCA.isNone) then false
  else if scf.serverCA.isSome && scf2.serverCA.isSome &&
          scf.serverCA.getD [] != scf2.serverCA.getD [] then false
  else if (scf.clientCert.isNone && scf2.clientCert.isSome) ||
          (scf.clientCert.isSome && scf2.clientCert.isNone) then false
  else if scf.clientCert.isSome && scf2.clientCert.isSome &&
          (scf.clientCert.getD []).headD [] != (scf2.clientCert.getD []).headD [] then false
  else true

/-- One pass of `updateServerContextTicker`'s body: `if !sa.f.isSameAs(saf)
{ sa.f = *saf }` — keep the current snapshot when the freshly loaded one is
the same, else swap it in. -/
def updateServerContext (cur loaded : serverContextFields) : serverContextFields :=
  if !(isSameAs cur loaded) then loaded else cur

end Agent

/-- Two snapshots equal in username, server URL, token, CA bytes and client
certificate, differing only in the insecure flag. -/
def scfA : Agent.serverContextFields :=
  ⟨"u", "https://s", none, none, "tok", false⟩

/-- See `scfA`. -/
def scfB : Agent.serverContextFields :=
  ⟨"u", "https://s", none, none, "tok", true⟩

/-- C6 counterexample: `scfA` and `scfB` agree on every field the claim
lists (username, server URL, token, CA bytes, client certificate leaf), yet
the refresher replaces the snapshot, because the code also compares the
insecure flag. -/
theorem updateServerContext_insecure_cex :
    scfA.username = scfB.username ∧ scfA.serverURL = scfB.serverURL ∧
    scfA.token = scfB.token ∧ scfA.serverCA = scfB.serverCA ∧
    scfA.clientCert = scfB.clientCert ∧
    Agent.updateServerContext scfA scfB = scfB ∧ scfB ≠ scfA := by
  decide

/-- `isSameAs` returns true exactly when the two snapshots agree on
username, server URL, token, insecure flag, CA certificate bytes, and
client certificate leaf. -/
theorem Agent.isSameAs_true_iff (a b : Agent.serverContextFields) :
    Agent.isSameAs a b = true ↔
      (a.username = b.username ∧ a.serverURL = b.serverURL ∧ a.token = b.token ∧
       a.insecure = b.insecure ∧ a.serverCA = b.serverCA ∧
       Option.map (fun l => l.headD []) a.clientCert
         = Option.map (fun l => l.headD []) b.clientCert) := by
  obtain ⟨u, s, ca, cc, t, i⟩ := a
  obtain ⟨u2, s2, ca2, cc2, t2, i2⟩ := b
  simp only [Agent.isSameAs]
  cases ca <;> cases ca2 <;> cases cc <;> cases cc2 <;>
    simp [bne_iff_ne] <;> tauto

/-- C6 (amended): the refresher keeps the current snapshot when the loaded
one agrees with it on username, server URL, token, insecure flag, CA
certificate bytes and client certificate leaf, and replaces it with the
loaded one when any of those differ. -/
theorem updateServerContext_spec (cur loaded : Agent.serverContextFields) :
    Agent.updateServerContext cur loaded =
      if (cur.username = loaded.username ∧ cur.serverURL = loaded.serverURL ∧
          cur.token = loaded.token ∧ cur.insecure = loaded.insecure ∧
          cur.serverCA = loaded.serverCA ∧
          Option.map (fun l => l.headD []) cur.clientCert
            = Option.map (fun l => l.headD []) loaded.clientCert)
      then cur else loaded := by
  unfold Agent.updateServerContext
  by_cases hp : (cur.username = loaded.username ∧ cur.serverURL = loaded.serverURL ∧
          cur.token = loaded.token ∧ cur.insecure = loaded.insecure ∧
          cur.serverCA = loaded.serverCA ∧
          Option.map (fun l => l.headD []) cur.clientCert
            = Option.map (fun l => l.headD []) loaded.clientCert)
  · rw [if_pos hp]
    have hs : Agent.isSameAs cur loaded = true :=
      (Agent.isSameAs_true_iff cur loaded).mpr hp
    simp [hs]
  · rw [if_neg hp]
    have hs : Agent.isSameAs cur loaded = false := by
      cases h : Agent.isSameAs cur loaded
      · rfl
      · exact absurd ((Agent.isSameAs_true_iff cur loaded).mp h) hp
    simp [hs]
